import Mathlib

/-!
Shallow embedding of keyborg (`src/Keyborg.ts`): a per-window detector of
keyboard-vs-pointer navigation.  The global `KeyborgState` singleton keeps a
registry of weakly-held per-window cores plus one boolean; each `KeyborgCore`
owns the native event handlers (`mousedown`, `keydown`, focus-in) and two
cancellable timers; each public `Keyborg` handle keeps an ordered callback
list.  Callbacks and DOM elements are represented by natural-number tokens;
liveness of a weak reference is an explicit boolean on each registry entry;
timers are pending records that a separate "fire" event consumes.
-/

namespace KeyborgModel

/-- The fields of a DOM `MouseEvent` read by `KeyborgCore._onMouseDown`. -/
structure MouseEvent where
  buttons : Nat
  clientX : Int
  clientY : Int
  screenX : Int
  screenY : Int
deriving DecidableEq, Repr

/-- The `details` payload of a `KeyborgFocusInEvent` produced by the focus
shim: the `relatedTarget` element (if any) and the programmatic-focus flag,
which is left `none` when detection is unavailable (JS `undefined`). -/
structure KeyborgFocusInDetails where
  relatedTarget : Option Nat
  isFocusedProgrammatically : Option Bool
deriving DecidableEq, Repr

/-- `_dismissTimeout` from `Keyborg.ts`: milliseconds a dismiss key must see an
unchanged focus before keyboard-navigation mode is dismissed. -/
def dismissTimeoutMs : Nat := 500

/-- The literal `1000` passed to `win.setTimeout` in `_onMouseDown`: how long
the mouse-recently-used indication is kept. -/
def mouseUsedTimeoutMs : Nat := 1000

/-- `KeyborgState`: the process-wide singleton.  `coreRefs` embeds
`__keyborgCoreRefs`, an insertion-ordered map from core id to a weak
reference; the boolean on each entry tells whether `deref()` still returns
the core (the referent is alive). -/
structure KeyborgState where
  coreRefs : List (Nat × Bool)
  isNavigatingWithKeyboard : Bool
deriving DecidableEq, Repr

namespace KeyborgState

/-- `KeyborgState.add`: register a core id unless already present; the weak
reference is created from a live strong reference. -/
def add (s : KeyborgState) (id : Nat) (alive : Bool) : KeyborgState :=
  if s.coreRefs.any (fun p => p.1 == id) then s
  else { s with coreRefs := s.coreRefs ++ [(id, alive)] }

/-- `KeyborgState.remove`: delete the id from the registry; if the registry
became empty, force the boolean to `false`. -/
def remove (s : KeyborgState) (id : Nat) : KeyborgState :=
  let refs := s.coreRefs.filter (fun p => !(p.1 == id))
  { coreRefs := refs
    isNavigatingWithKeyboard :=
      if refs.isEmpty then false else s.isNavigatingWithKeyboard }

/-- The notification loop inside `KeyborgState.setVal`: walk the snapshot of
registry keys; a live referent is sent `update` (recorded in the returned
list of notified core ids), a dead one is removed via `remove`. -/
def setValLoop : List (Nat × Bool) → KeyborgState → List Nat →
    KeyborgState × List Nat
  | [], s, notified => (s, notified)
  | (id, alive) :: rest, s, notified =>
    if alive then setValLoop rest s (notified ++ [id])
    else setValLoop rest (s.remove id) notified

/-- `KeyborgState.setVal`: value-equality short circuit, then store the new
boolean and notify every live registered core (dead weak references are
pruned instead).  Returns the new state and the ids notified, in order. -/
def setVal (s : KeyborgState) (v : Bool) : KeyborgState × List Nat :=
  if s.isNavigatingWithKeyboard = v then (s, [])
  else setValLoop s.coreRefs { s with isNavigatingWithKeyboard := v } []

/-- `KeyborgState.getVal`. -/
def getVal (s : KeyborgState) : Bool := s.isNavigatingWithKeyboard

end KeyborgState

/-- The state of one `KeyborgCore`: its id, whether `_win` is still set,
the two pending timers, and the configured key sets (`none` = not
configured).  A pending mouse timer stores its timeout; a pending dismiss
timer stores the captured `document.activeElement` and its timeout. -/
structure CoreState where
  id : Nat
  hasWin : Bool
  isMouseUsedTimer : Option Nat
  dismissTimer : Option (Option Nat × Nat)
  triggerKeys : Option (List Nat)
  dismissKeys : Option (List Nat)
deriving DecidableEq, Repr

/-- `KeyborgProps`: optional trigger/dismiss key-code lists. -/
structure KeyborgProps where
  triggerKeys : Option (List Nat)
  dismissKeys : Option (List Nat)
deriving DecidableEq, Repr

/-- `keys?.has(k)` where `keys` may be undefined. -/
def optHas (ks : Option (List Nat)) (k : Nat) : Bool :=
  match ks with
  | some l => l.contains k
  | none => false

namespace KeyborgCore

/-- The `KeyborgCore` constructor: store the window, convert non-empty
configured key lists into sets (`props.triggerKeys?.length` truthiness), and
register with the global state (`_state.add(this)`, a live reference). -/
def construct (id : Nat) (props : Option KeyborgProps) (st : KeyborgState) :
    CoreState × KeyborgState :=
  let tk : Option (List Nat) :=
    match props with
    | some p =>
      match p.triggerKeys with
      | some l => if l.isEmpty then none else some l
      | none => none
    | none => none
  let dk : Option (List Nat) :=
    match props with
    | some p =>
      match p.dismissKeys with
      | some l => if l.isEmpty then none else some l
      | none => none
    | none => none
  (⟨id, true, none, none, tk, dk⟩, st.add id true)

/-- `KeyborgCore.dispose`: if `_win` is still present, clear both timers,
drop the window and unregister from the global state; otherwise do nothing. -/
def dispose (c : CoreState) (st : KeyborgState) : CoreState × KeyborgState :=
  if c.hasWin then
    ({ c with hasWin := false, isMouseUsedTimer := none, dismissTimer := none },
      st.remove c.id)
  else (c, st)

/-- `KeyborgCore.isDisposed`: literally `!!this._win`. -/
def isDisposed (c : CoreState) : Bool := c.hasWin

/-- `KeyborgCore._onMouseDown`: ignore events with zero `buttons` or with all
four coordinates zero; otherwise restart the mouse-used timer (when the
window is still attached) and set the global state to `false`. -/
def onMouseDown (c : CoreState) (st : KeyborgState) (e : MouseEvent) :
    CoreState × KeyborgState × List Nat :=
  if e.buttons == 0 ||
      (e.clientX == 0 && e.clientY == 0 && e.screenX == 0 && e.screenY == 0) then
    (c, st, [])
  else
    let c1 := if c.hasWin then
      { c with isMouseUsedTimer := some mouseUsedTimeoutMs } else c
    (c1, st.setVal false)

/-- `KeyborgCore._onFocusIn`: bail out while the mouse-used timer is pending,
when already navigating with keyboard, when there is no `relatedTarget`, or
when `isFocusedProgrammatically` is `true` or undefined; otherwise set the
global state to `true`. -/
def onFocusIn (c : CoreState) (st : KeyborgState) (d : KeyborgFocusInDetails) :
    CoreState × KeyborgState × List Nat :=
  if c.isMouseUsedTimer.isSome then (c, st, [])
  else if st.getVal then (c, st, [])
  else if d.relatedTarget.isNone then (c, st, [])
  else
    match d.isFocusedProgrammatically with
    | some true => (c, st, [])
    | none => (c, st, [])
    | some false => (c, st.setVal true)

/-- `KeyborgCore._scheduleDismiss`: when the window is attached, cancel any
pending dismiss timer, capture `document.activeElement` and start a fresh
`dismissTimeoutMs` timer. -/
def scheduleDismiss (c : CoreState) (activeElement : Option Nat) : CoreState :=
  if c.hasWin then { c with dismissTimer := some (activeElement, dismissTimeoutMs) }
  else c

/-- `KeyborgCore._onKeyDown`: entering keyboard navigation when not in it and
the key passes the trigger filter; scheduling a dismiss when in it and the
key is a dismiss key; otherwise nothing.  `activeElement` is the focused
element a scheduled dismiss would capture. -/
def onKeyDown (c : CoreState) (st : KeyborgState) (keyCode : Nat)
    (activeElement : Option Nat) : CoreState × KeyborgState × List Nat :=
  let isNav := st.getVal
  if !isNav && (c.triggerKeys.isNone || optHas c.triggerKeys keyCode) then
    (c, st.setVal true)
  else if isNav && optHas c.dismissKeys keyCode then
    (scheduleDismiss c activeElement, st, [])
  else (c, st, [])

/-- The mouse-used timer firing: `delete this._isMouseUsedTimer` (a cancelled
timer never fires). -/
def mouseTimerFire (c : CoreState) : CoreState :=
  if c.isMouseUsedTimer.isSome then { c with isMouseUsedTimer := none } else c

/-- The dismiss timer firing (a cancelled timer never fires): clear the
handle, then set the global state to `false` only when both the captured and
the current `activeElement` exist and are the same element. -/
def dismissTimerFire (c : CoreState) (st : KeyborgState)
    (activeElement : Option Nat) : CoreState × KeyborgState × List Nat :=
  match c.dismissTimer with
  | none => (c, st, [])
  | some (was, _) =>
    let c1 := { c with dismissTimer := none }
    match was, activeElement with
    | some w, some cur =>
      if w == cur then (c1, st.setVal false) else (c1, st, [])
    | some _, none => (c1, st, [])
    | none, _ => (c1, st, [])

end KeyborgCore

namespace Keyborg

/-- `Keyborg.subscribe`: `this._cb.push(callback)`. -/
def subscribe (cbs : List Nat) (cb : Nat) : List Nat := cbs ++ [cb]

/-- JS `Array.prototype.indexOf`: index of the first strictly-equal element. -/
def cbIndexOf : List Nat → Nat → Option Nat
  | [], _ => none
  | x :: rest, cb =>
    if x == cb then some 0 else (cbIndexOf rest cb).map (· + 1)

/-- `Keyborg.unsubscribe`: `indexOf` then, when found, `splice(index, 1)`. -/
def unsubscribe (cbs : List Nat) (cb : Nat) : List Nat :=
  match cbIndexOf cbs cb with
  | some i => cbs.take i ++ cbs.drop (i + 1)
  | none => cbs

end Keyborg

/-- The per-instance state of a public `Keyborg` handle: whether `_win` is
still set and the subscriber list `_cb`. -/
structure HandleState where
  live : Bool
  cbs : List Nat
deriving DecidableEq, Repr

/-- One window together with everything keyborg hangs off it: the
`win.__keyborg` entry (core id and the insertion-ordered keys of `refs`),
the states of every handle ever constructed for the window, the shared
id counter `_lastId`, and the global `KeyborgState`. -/
structure WinSys where
  entry : Option (Nat × List Nat)
  handles : List (Nat × HandleState)
  lastId : Nat
  gstate : KeyborgState
deriving DecidableEq, Repr

/-- Object-property lookup `refsTable[id]` over the handle side table. -/
def lookupHandle : List (Nat × HandleState) → Nat → Option HandleState
  | [], _ => none
  | p :: rest, hid => if p.1 == hid then some p.2 else lookupHandle rest hid

/-- Overwrite the state stored for handle `hid`. -/
def setHandle (hs : List (Nat × HandleState)) (hid : Nat) (h : HandleState) :
    List (Nat × HandleState) :=
  hs.map (fun p => if p.1 == hid then (p.1, h) else p)

/-- The private `Keyborg` constructor (via `createKeyborg`): draw a fresh id,
then either join the window's existing `__keyborg` entry or build a new
`KeyborgCore` (drawing the next id and registering with the global state)
and install a fresh entry holding only this handle. -/
def createKeyborg (w : WinSys) : WinSys :=
  let hid := w.lastId + 1
  match w.entry with
  | some (cid, refs) =>
    { w with
      entry := some (cid, refs ++ [hid])
      handles := w.handles ++ [(hid, ⟨true, []⟩)]
      lastId := hid }
  | none =>
    let cid := hid + 1
    { entry := some (cid, [hid])
      handles := w.handles ++ [(hid, ⟨true, []⟩)]
      lastId := cid
      gstate := w.gstate.add cid true }

/-- `Keyborg.dispose`: when the handle still has its window and is present in
the window's `refs`, remove it, and if it was the last one dispose the core
(which unregisters from the global state) and delete `win.__keyborg`;
otherwise only report the misuse when `__DEV__`.  Either way the handle's
callback list, core and window references are cleared.  Returns the new
system state and whether the diagnostic was emitted. -/
def disposeKeyborg (w : WinSys) (hid : Nat) (dev : Bool) : WinSys × Bool :=
  match lookupHandle w.handles hid with
  | none => (w, false)
  | some h =>
    match (if h.live then w.entry else none) with
    | some (cid, refs) =>
      if refs.contains hid then
        let refs1 := refs.filter (fun r => !(r == hid))
        if refs1.isEmpty then
          ({ w with
              entry := none
              gstate := w.gstate.remove cid
              handles := setHandle w.handles hid ⟨false, []⟩ }, false)
        else
          ({ w with
              entry := some (cid, refs1)
              handles := setHandle w.handles hid ⟨false, []⟩ }, false)
      else
        ({ w with handles := setHandle w.handles hid ⟨false, []⟩ }, dev)
    | none =>
      ({ w with handles := setHandle w.handles hid ⟨false, []⟩ }, dev)

/-- The operations a user of the public API can perform on one window. -/
inductive WinOp where
  | create : WinOp
  | disposeOp : Nat → Bool → WinOp
  | subscribeOp : Nat → Nat → WinOp
  | unsubscribeOp : Nat → Nat → WinOp
deriving DecidableEq, Repr

/-- Apply one public-API operation. -/
def applyWinOp (w : WinSys) : WinOp → WinSys
  | .create => createKeyborg w
  | .disposeOp hid dev => (disposeKeyborg w hid dev).1
  | .subscribeOp hid cb =>
    match lookupHandle w.handles hid with
    | some h =>
      let h1 : HandleState := { h with cbs := Keyborg.subscribe h.cbs cb }
      { w with handles := setHandle w.handles hid h1 }
    | none => w
  | .unsubscribeOp hid cb =>
    match lookupHandle w.handles hid with
    | some h =>
      let h1 : HandleState := { h with cbs := Keyborg.unsubscribe h.cbs cb }
      { w with handles := setHandle w.handles hid h1 }
    | none => w

/-- The window system before any handle has been created. -/
def initWin : WinSys := ⟨none, [], 0, ⟨[], false⟩⟩

/-- Run a sequence of public-API operations from the initial system. -/
def runWin (ops : List WinOp) : WinSys := ops.foldl applyWinOp initWin

/-- The operations observable at the `KeyborgState` singleton: registering a
core (with the liveness its weak reference will exhibit), unregistering,
a referent being collected, and `setVal` (reachable from cores and from any
handle's manual override). -/
inductive StateOp where
  | addOp : Nat → Bool → StateOp
  | removeOp : Nat → StateOp
  | killOp : Nat → StateOp
  | setValOp : Bool → StateOp
deriving DecidableEq, Repr

/-- Apply one singleton operation; `killOp` marks a weak reference dead. -/
def applyStateOp (s : KeyborgState) : StateOp → KeyborgState
  | .addOp id alive => s.add id alive
  | .removeOp id => s.remove id
  | .killOp id =>
    { s with coreRefs :=
        s.coreRefs.map (fun p => if p.1 == id then (p.1, false) else p) }
  | .setValOp v => (s.setVal v).1

/-- The singleton as first constructed: empty registry, `false`. -/
def initState : KeyborgState := ⟨[], false⟩

/-- Run a sequence of singleton operations from the initial state. -/
def runState (ops : List StateOp) : KeyborgState := ops.foldl applyStateOp initState

/-- Every `setVal` in the sequence is issued while the registry is
non-empty. -/
def setValOnNonempty : KeyborgState → List StateOp → Bool
  | _, [] => true
  | s, op :: ops =>
    (match op with
     | .setValOp _ => !s.coreRefs.isEmpty
     | _ => true) && setValOnNonempty (applyStateOp s op) ops

/-- The spec's registry/boolean invariant. -/
def navInv (s : KeyborgState) : Prop :=
  s.coreRefs = [] → s.isNavigatingWithKeyboard = false

instance (s : KeyborgState) : Decidable (navInv s) := by
  unfold navInv; infer_instance

/-- C3: a `setVal` whose argument equals the value already in effect returns
the state unchanged and notifies nobody: no core `update`, hence no
subscriber callback, and the registry and boolean are untouched. -/
theorem c3_setVal_same_noop (s : KeyborgState) (v : Bool)
    (h : s.isNavigatingWithKeyboard = v) : s.setVal v = (s, []) := by
  simp [KeyborgState.setVal, h]

/-- Witness for C3 at a concrete state. -/
theorem c3_setVal_same_noop_witness :
    (⟨[(1, true)], true⟩ : KeyborgState).isNavigatingWithKeyboard = true ∧
      KeyborgState.setVal ⟨[(1, true)], true⟩ true = (⟨[(1, true)], true⟩, []) :=
  ⟨rfl, c3_setVal_same_noop ⟨[(1, true)], true⟩ true rfl⟩

/-- C10: `isDisposed` returns `!!this._win`: it is `true` on a freshly
constructed core (window reference still held, `dispose` not yet called) and
`false` once `dispose` has run — the opposite of what the name suggests. -/
theorem c10_isDisposed_reports_window :
    (∀ c : CoreState, KeyborgCore.isDisposed c = c.hasWin) ∧
    (∀ id props st, KeyborgCore.isDisposed (KeyborgCore.construct id props st).1 = true) ∧
    (∀ (c : CoreState) (st : KeyborgState), c.hasWin = true →
      (KeyborgCore.isDisposed (KeyborgCore.dispose c st).1 = false)) := by
  refine ⟨fun c => rfl, fun id props st => rfl, fun c st h => ?_⟩
  simp [KeyborgCore.dispose, KeyborgCore.isDisposed, h]

/-- Witness for C10: a concrete core before and after `dispose`. -/
theorem c10_isDisposed_reports_window_witness :
    (⟨5, true, none, none, none, none⟩ : CoreState).hasWin = true ∧
      KeyborgCore.isDisposed (KeyborgCore.dispose ⟨5, true, none, none, none, none⟩ initState).1 = false :=
  ⟨rfl, c10_isDisposed_reports_window.2.2 ⟨5, true, none, none, none, none⟩ initState rfl⟩

/-- C4: `_onFocusIn` changes nothing while the mouse-used timer is pending,
when the shared state is already `true`, when the event has no
`relatedTarget`, or when `isFocusedProgrammatically` is `true` or undefined;
in the one remaining case it sets the shared state to `true`. -/
theorem c4_onFocusIn_cases (c : CoreState) (st : KeyborgState)
    (d : KeyborgFocusInDetails) :
    ((c.isMouseUsedTimer.isSome = true ∨ st.getVal = true ∨
        d.relatedTarget = none ∨ d.isFocusedProgrammatically = some true ∨
        d.isFocusedProgrammatically = none) →
      KeyborgCore.onFocusIn c st d = (c, st, [])) ∧
    (c.isMouseUsedTimer = none → st.getVal = false →
      d.relatedTarget.isNone = false → d.isFocusedProgrammatically = some false →
      KeyborgCore.onFocusIn c st d = (c, st.setVal true)) := by
  constructor
  · rintro (h | h | h | h | h) <;> simp [KeyborgCore.onFocusIn, h]
  · intro h1 h2 h3 h4
    simp [KeyborgCore.onFocusIn, h1, h2, h3, h4]

/-- Witness for C4: a genuine user-driven focus-in flips the state. -/
theorem c4_onFocusIn_cases_witness :
    KeyborgCore.onFocusIn ⟨1, true, none, none, none, none⟩ ⟨[(1, true)], false⟩
        ⟨some 9, some false⟩ =
      (⟨1, true, none, none, none, none⟩,
        KeyborgState.setVal ⟨[(1, true)], false⟩ true) :=
  (c4_onFocusIn_cases ⟨1, true, none, none, none, none⟩ ⟨[(1, true)], false⟩
    ⟨some 9, some false⟩).2 rfl rfl rfl rfl

/-- C5: `_onKeyDown` sets the shared state to `true` when it is `false` and
the key passes the (possibly absent) trigger filter; schedules a dismiss when
the state is `true` and the key is a configured dismiss key; and does nothing
otherwise. -/
theorem c5_onKeyDown_cases (c : CoreState) (st : KeyborgState) (keyCode : Nat)
    (active : Option Nat) :
    (st.getVal = false →
      (c.triggerKeys = none ∨ optHas c.triggerKeys keyCode = true) →
      KeyborgCore.onKeyDown c st keyCode active = (c, st.setVal true)) ∧
    (st.getVal = true → optHas c.dismissKeys keyCode = true →
      KeyborgCore.onKeyDown c st keyCode active =
        (KeyborgCore.scheduleDismiss c active, st, [])) ∧
    (st.getVal = false → c.triggerKeys ≠ none →
      optHas c.triggerKeys keyCode = false →
      KeyborgCore.onKeyDown c st keyCode active = (c, st, [])) ∧
    (st.getVal = true → optHas c.dismissKeys keyCode = false →
      KeyborgCore.onKeyDown c st keyCode active = (c, st, [])) := by
  refine ⟨?_, ?_, ?_, ?_⟩
  · rintro h (h2 | h2) <;> simp [KeyborgCore.onKeyDown, h, h2]
  · intro h h2
    simp [KeyborgCore.onKeyDown, h, h2]
  · intro h h2 h3
    have : c.triggerKeys.isNone = false := by
      cases htk : c.triggerKeys with
      | none => exact absurd htk h2
      | some l => rfl
    simp [KeyborgCore.onKeyDown, h, h3, this]
  · intro h h2
    simp [KeyborgCore.onKeyDown, h, h2]

/-- Witness for C5: with no trigger restriction, any key enters
keyboard-navigation mode from pointer-navigation mode. -/
theorem c5_onKeyDown_cases_witness :
    KeyborgCore.onKeyDown ⟨1, true, none, none, none, none⟩ ⟨[(1, true)], false⟩ 65 none =
      (⟨1, true, none, none, none, none⟩,
        KeyborgState.setVal ⟨[(1, true)], false⟩ true) :=
  (c5_onKeyDown_cases ⟨1, true, none, none, none, none⟩ ⟨[(1, true)], false⟩ 65
    none).1 rfl (Or.inl rfl)

end KeyborgModel

namespace KeyborgModel

/-- C1 counterexample: a mousedown with non-zero `buttons` but all four
coordinates zero satisfies the claim's trigger condition ("buttons non-zero,
or any coordinate non-zero"), yet `_onMouseDown` ignores it: no mouse-used
timer is started and the shared state stays `true`. -/
theorem c1_onMouseDown_counterexample :
    (⟨1, 0, 0, 0, 0⟩ : MouseEvent).buttons ≠ 0 ∧
      KeyborgCore.onMouseDown ⟨1, true, none, none, none, none⟩
          ⟨[(1, true)], true⟩ ⟨1, 0, 0, 0, 0⟩ =
        (⟨1, true, none, none, none, none⟩, ⟨[(1, true)], true⟩, []) ∧
      (⟨[(1, true)], true⟩ : KeyborgState).isNavigatingWithKeyboard = true := by
  decide

/-- C1 amended: `_onMouseDown` ignores an event (no state change, no timer)
exactly when `buttons` is zero OR all four coordinates are zero; it starts
the 1-second mouse-used timer and sets the shared state to `false` exactly
when `buttons` is non-zero AND at least one coordinate is non-zero (the
timer part assuming the core still holds its window). -/
theorem c1_onMouseDown_amended (c : CoreState) (st : KeyborgState)
    (e : MouseEvent) :
    ((e.buttons = 0 ∨
        (e.clientX = 0 ∧ e.clientY = 0 ∧ e.screenX = 0 ∧ e.screenY = 0)) →
      KeyborgCore.onMouseDown c st e = (c, st, [])) ∧
    (c.hasWin = true → e.buttons ≠ 0 →
      ¬(e.clientX = 0 ∧ e.clientY = 0 ∧ e.screenX = 0 ∧ e.screenY = 0) →
      KeyborgCore.onMouseDown c st e =
        ({ c with isMouseUsedTimer := some mouseUsedTimeoutMs },
          st.setVal false)) := by
  constructor
  · rintro (h | ⟨h1, h2, h3, h4⟩)
    · simp [KeyborgCore.onMouseDown, h]
    · simp [KeyborgCore.onMouseDown, h1, h2, h3, h4]
  · intro hw hb hcoord
    simp [KeyborgCore.onMouseDown, hb, hw, fun h => hcoord h]
    intro h1 h2 h3 h4
    exact absurd ⟨h1, h2, h3, h4⟩ hcoord

/-- Witness for C1 amended: a click with `buttons = 1` at (5, 6)/(7, 8)
starts the timer and drops the shared state to pointer navigation. -/
theorem c1_onMouseDown_amended_witness :
    KeyborgCore.onMouseDown ⟨1, true, none, none, none, none⟩
        ⟨[(1, true)], true⟩ ⟨1, 5, 6, 7, 8⟩ =
      (⟨1, true, some mouseUsedTimeoutMs, none, none, none⟩,
        KeyborgState.setVal ⟨[(1, true)], true⟩ false) :=
  (c1_onMouseDown_amended ⟨1, true, none, none, none, none⟩ ⟨[(1, true)], true⟩
    ⟨1, 5, 6, 7, 8⟩).2 rfl (by decide) (by decide)

/-- C6: a scheduled dismiss captures the element focused at scheduling time
(cancelling and replacing any pending dismiss timer); scheduling itself
leaves the shared state untouched; when the timer fires, the state drops to
`false` only when the focused element is unchanged, and nothing changes when
focus moved or was lost. -/
theorem c6_scheduleDismiss_behavior (c : CoreState) (st : KeyborgState)
    (keyCode : Nat) (active : Option Nat) (w cur : Nat) (t : Nat) :
    (c.hasWin = true →
      (KeyborgCore.scheduleDismiss c active).dismissTimer =
        some (active, dismissTimeoutMs)) ∧
    (st.getVal = true → optHas c.dismissKeys keyCode = true →
      (KeyborgCore.onKeyDown c st keyCode active).2 = (st, [])) ∧
    (c.dismissTimer = some (some w, t) →
      KeyborgCore.dismissTimerFire c st (some w) =
        ({ c with dismissTimer := none }, st.setVal false)) ∧
    (c.dismissTimer = some (some w, t) → w ≠ cur →
      KeyborgCore.dismissTimerFire c st (some cur) =
        ({ c with dismissTimer := none }, st, [])) ∧
    (c.dismissTimer = some (some w, t) →
      KeyborgCore.dismissTimerFire c st none =
        ({ c with dismissTimer := none }, st, [])) := by
  refine ⟨?_, ?_, ?_, ?_, ?_⟩
  · intro hw
    simp [KeyborgCore.scheduleDismiss, hw]
  · intro h h2
    simp [KeyborgCore.onKeyDown, h, h2]
  · intro hd
    simp [KeyborgCore.dismissTimerFire, hd]
  · intro hd hne
    simp [KeyborgCore.dismissTimerFire, hd, hne]
  · intro hd
    simp [KeyborgCore.dismissTimerFire, hd]

/-- Witness for C6: dismiss scheduled while element 3 is focused; firing with
focus still on 3 dismisses keyboard-navigation mode. -/
theorem c6_scheduleDismiss_behavior_witness :
    (KeyborgCore.scheduleDismiss ⟨1, true, none, none, none, some [27]⟩
        (some 3)).dismissTimer = some (some 3, dismissTimeoutMs) ∧
      KeyborgCore.dismissTimerFire
          ⟨1, true, none, some (some 3, dismissTimeoutMs), none, some [27]⟩
          ⟨[(1, true)], true⟩ (some 3) =
        (⟨1, true, none, none, none, some [27]⟩,
          KeyborgState.setVal ⟨[(1, true)], true⟩ false) :=
  ⟨(c6_scheduleDismiss_behavior ⟨1, true, none, none, none, some [27]⟩
      ⟨[(1, true)], true⟩ 27 (some 3) 3 3 dismissTimeoutMs).1 rfl,
    (c6_scheduleDismiss_behavior
      ⟨1, true, none, some (some 3, dismissTimeoutMs), none, some [27]⟩
      ⟨[(1, true)], true⟩ 27 (some 3) 3 3 dismissTimeoutMs).2.2.1 rfl⟩

end KeyborgModel

namespace KeyborgModel

/-- `indexOf` finds the first occurrence: scanning `l1 ++ cb :: l2` with
`cb ∉ l1` yields index `l1.length`. -/
theorem cbIndexOf_append_cons (l1 l2 : List Nat) (cb : Nat) (h : cb ∉ l1) :
    Keyborg.cbIndexOf (l1 ++ cb :: l2) cb = some l1.length := by
  induction l1 with
  | nil => simp [Keyborg.cbIndexOf]
  | cons x t ih =>
    have hx : x ≠ cb := fun hxe => h (by simp [hxe])
    have ht : cb ∉ t := fun hte => h (by simp [hte])
    simp [Keyborg.cbIndexOf, hx, ih ht]

/-- `indexOf` misses entirely when the callback is absent. -/
theorem cbIndexOf_eq_none (l : List Nat) (cb : Nat) (h : cb ∉ l) :
    Keyborg.cbIndexOf l cb = none := by
  induction l with
  | nil => rfl
  | cons x t ih =>
    have hx : x ≠ cb := fun hxe => h (by simp [hxe])
    have ht : cb ∉ t := fun hte => h (by simp [hte])
    simp [Keyborg.cbIndexOf, hx, ih ht]

/-- Splitting a list at the first occurrence of a member. -/
theorem exists_first_split (l : List Nat) (cb : Nat) (h : cb ∈ l) :
    ∃ l1 l2, l = l1 ++ cb :: l2 ∧ cb ∉ l1 := by
  induction l with
  | nil => cases h
  | cons x t ih =>
    by_cases hx : x = cb
    · exact ⟨[], t, by simp [hx], by simp⟩
    · have ht : cb ∈ t := by
        rcases List.mem_cons.1 h with h1 | h1
        · exact absurd h1.symm hx
        · exact h1
      rcases ih ht with ⟨l1, l2, heq, hn⟩
      exact ⟨x :: l1, l2, by simp [heq], by simp [Ne.symm hx, hn]⟩

/-- `unsubscribe` removes exactly the first occurrence of a present
callback. -/
theorem unsubscribe_first_occurrence (l1 l2 : List Nat) (cb : Nat)
    (h : cb ∉ l1) :
    Keyborg.unsubscribe (l1 ++ cb :: l2) cb = l1 ++ l2 := by
  have hidx := cbIndexOf_append_cons l1 l2 cb h
  have htake : (l1 ++ cb :: l2).take l1.length = l1 := by
    simp [List.take_left]
  have hdrop : (l1 ++ cb :: l2).drop (l1.length + 1) = l2 := by
    have h1 : l1 ++ cb :: l2 = (l1 ++ [cb]) ++ l2 := by simp
    have h2 : l1.length + 1 = (l1 ++ [cb]).length := by simp
    rw [h1, h2]
    exact List.drop_left (l1 ++ [cb]) l2
  simp [Keyborg.unsubscribe, hidx, htake, hdrop]

/-- C9: `subscribe` appends the callback to the end of the list (duplicates
allowed); `unsubscribe` removes exactly the first occurrence and leaves the
list unchanged when the callback is absent; so subscribing the same callback
twice and unsubscribing once leaves one extra occurrence. -/
theorem c9_subscribe_unsubscribe :
    (∀ (l : List Nat) (cb : Nat), Keyborg.subscribe l cb = l ++ [cb]) ∧
    (∀ (l1 l2 : List Nat) (cb : Nat), cb ∉ l1 →
      Keyborg.unsubscribe (l1 ++ cb :: l2) cb = l1 ++ l2) ∧
    (∀ (l : List Nat) (cb : Nat), cb ∉ l → Keyborg.unsubscribe l cb = l) ∧
    (∀ (l : List Nat) (cb : Nat),
      (Keyborg.unsubscribe (Keyborg.subscribe (Keyborg.subscribe l cb) cb)
          cb).count cb = l.count cb + 1) := by
  refine ⟨fun l cb => rfl, unsubscribe_first_occurrence, ?_, ?_⟩
  · intro l cb h
    simp [Keyborg.unsubscribe, cbIndexOf_eq_none l cb h]
  · intro l cb
    by_cases hmem : cb ∈ l
    · rcases exists_first_split l cb hmem with ⟨l1, l2, rfl, hn⟩
      have harr : (l1 ++ cb :: l2) ++ [cb] ++ [cb] =
          l1 ++ cb :: (l2 ++ [cb] ++ [cb]) := by simp
      rw [Keyborg.subscribe, Keyborg.subscribe, harr,
        unsubscribe_first_occurrence l1 (l2 ++ [cb] ++ [cb]) cb hn]
      simp [List.count_append, List.count_cons]
      omega
    · have harr : l ++ [cb] ++ [cb] = l ++ cb :: [cb] := by simp
      rw [Keyborg.subscribe, Keyborg.subscribe, harr,
        unsubscribe_first_occurrence l [cb] cb hmem]
      simp [List.count_append, List.count_eq_zero.2 hmem]

/-- Witness for C9: callback 7 subscribed around callback 5. -/
theorem c9_subscribe_unsubscribe_witness :
    Keyborg.unsubscribe ([5, 7] ++ 7 :: [9]) 7 = [5, 7] ++ [9] ∨
      Keyborg.unsubscribe [5, 7, 7, 9] 7 = [5, 7, 9] :=
  Or.inr (by
    have h := c9_subscribe_unsubscribe.2.1 [5] [7, 9] 7 (by decide)
    simpa using h)

end KeyborgModel

namespace KeyborgModel

/-- `remove` re-establishes the registry/boolean invariant unconditionally:
it writes `false` exactly when the registry it leaves behind is empty. -/
theorem remove_navInv (s : KeyborgState) (id : Nat) : navInv (s.remove id) := by
  intro h
  simp only [KeyborgState.remove] at h ⊢
  simp [h]

/-- The `setVal` notification loop preserves the invariant: live entries
leave the state alone, dead entries go through `remove`. -/
theorem setValLoop_navInv (rest : List (Nat × Bool)) (s : KeyborgState)
    (acc : List Nat) (h : navInv s) :
    navInv (KeyborgState.setValLoop rest s acc).1 := by
  induction rest generalizing s acc with
  | nil => simpa [KeyborgState.setValLoop] using h
  | cons p t ih =>
    obtain ⟨id, alive⟩ := p
    cases alive with
    | false =>
      simpa [KeyborgState.setValLoop] using ih (s.remove id) acc (remove_navInv s id)
    | true =>
      simpa [KeyborgState.setValLoop] using ih s (acc ++ [id]) h

/-- `setVal` preserves the invariant whenever the registry is non-empty at
the call. -/
theorem setVal_navInv (s : KeyborgState) (v : Bool) (h : navInv s)
    (hne : s.coreRefs ≠ []) : navInv (s.setVal v).1 := by
  unfold KeyborgState.setVal
  by_cases heq : s.isNavigatingWithKeyboard = v
  · simpa [heq] using h
  · simp only [heq, if_false]
    exact setValLoop_navInv s.coreRefs _ [] (fun habs => absurd habs hne)

/-- `add` preserves the invariant. -/
theorem add_navInv (s : KeyborgState) (id : Nat) (alive : Bool)
    (h : navInv s) : navInv (s.add id alive) := by
  unfold KeyborgState.add
  by_cases hin : s.coreRefs.any (fun p => p.1 == id)
  · simpa [hin] using h
  · intro habs
    simp [hin] at habs

/-- C2 counterexample: the single-operation sequence `setVal(true)` issued on
the initial (empty) registry — reachable through a disposed handle's manual
override — leaves the registry empty while the boolean is `true`. -/
theorem c2_navInv_counterexample :
    (runState [StateOp.setValOp true]).coreRefs = [] ∧
      (runState [StateOp.setValOp true]).isNavigatingWithKeyboard = true := by
  decide

/-- C2 amended: after any sequence of add, remove, referent-collection and
setVal operations in which every `setVal` is issued while the registry is
non-empty, the boolean is `false` whenever the registry is empty.  (The
original claim fails only for a `setVal` on an already-empty registry.) -/
theorem c2_navInv_amended (ops : List StateOp)
    (h : setValOnNonempty initState ops = true) : navInv (runState ops) := by
  suffices haux : ∀ (ops : List StateOp) (s : KeyborgState), navInv s →
      setValOnNonempty s ops = true → navInv (ops.foldl applyStateOp s) by
    exact haux ops initState (fun _ => rfl) h
  intro ops
  induction ops with
  | nil => intro s hs _; simpa using hs
  | cons op t ih =>
    intro s hs hgood
    cases op with
    | addOp id alive =>
      simp only [setValOnNonempty, Bool.true_and] at hgood
      exact ih _ (add_navInv s id alive hs) hgood
    | removeOp id =>
      simp only [setValOnNonempty, Bool.true_and] at hgood
      exact ih _ (remove_navInv s id) hgood
    | killOp id =>
      simp only [setValOnNonempty, Bool.true_and] at hgood
      refine ih _ ?_ hgood
      intro habs
      simp only [applyStateOp] at habs ⊢
      exact hs (List.map_eq_nil_iff.1 habs)
    | setValOp v =>
      simp only [setValOnNonempty, Bool.and_eq_true] at hgood
      obtain ⟨hop, hrest⟩ := hgood
      refine ih _ (setVal_navInv s v hs ?_) hrest
      intro habs
      simp [habs] at hop

/-- Witness for C2 amended: add a live core, flip to keyboard navigation,
then remove the core; the invariant holds at the end. -/
theorem c2_navInv_amended_witness :
    setValOnNonempty initState
        [StateOp.addOp 1 true, StateOp.setValOp true, StateOp.removeOp 1] = true ∧
      navInv (runState
        [StateOp.addOp 1 true, StateOp.setValOp true, StateOp.removeOp 1]) :=
  ⟨by decide, c2_navInv_amended
    [StateOp.addOp 1 true, StateOp.setValOp true, StateOp.removeOp 1] (by decide)⟩

end KeyborgModel

namespace KeyborgModel

/-- The ids of every handle ever constructed for the window. -/
def handleIds (w : WinSys) : List Nat := w.handles.map Prod.fst

/-- Inductive invariant of one window's system: handle ids are distinct and
bounded by the id counter, and the `__keyborg` entry, when present, lists a
non-empty, duplicate-free set of ids that are exactly the live handles;
when absent no handle is live. -/
def WInv (w : WinSys) : Prop :=
  (w.handles.map Prod.fst).Nodup ∧
  (∀ p ∈ w.handles, p.1 ≤ w.lastId) ∧
  (match w.entry with
   | none => ∀ p ∈ w.handles, p.2.live = false
   | some (_, refs) =>
     refs ≠ [] ∧ refs.Nodup ∧ (∀ r ∈ refs, r ∈ w.handles.map Prod.fst) ∧
     (∀ p ∈ w.handles, (p.2.live = true ↔ p.1 ∈ refs)))

/-- `setHandle` does not touch the key column. -/
theorem setHandle_map_fst (hs : List (Nat × HandleState)) (hid : Nat)
    (h : HandleState) :
    (setHandle hs hid h).map Prod.fst = hs.map Prod.fst := by
  induction hs with
  | nil => rfl
  | cons p t ih =>
    by_cases hp : p.1 = hid
    · simp [setHandle, hp] at ih ⊢
      exact ih
    · simp [setHandle, hp] at ih ⊢
      exact ih

/-- Membership after `setHandle`: either the overwritten entry (whose key
occurs in the table) or an untouched entry with a different key or an entry
that already had value `h`. -/
theorem mem_setHandle {hs : List (Nat × HandleState)} {hid : Nat}
    {h : HandleState} {q : Nat × HandleState}
    (hmem : q ∈ setHandle hs hid h) :
    (q.1 = hid ∧ q.2 = h ∧ hid ∈ hs.map Prod.fst) ∨ (q ∈ hs ∧ q.1 ≠ hid) := by
  rcases List.mem_map.1 hmem with ⟨p, hp, hq⟩
  by_cases hph : p.1 = hid
  · left
    simp [hph] at hq
    refine ⟨by rw [← hq], by rw [← hq], ?_⟩
    exact List.mem_map.2 ⟨p, hp, hph⟩
  · right
    simp [hph] at hq
    exact ⟨hq ▸ hp, hq ▸ hph⟩

/-- `lookupHandle` returns a pair that is in the table. -/
theorem lookupHandle_mem {hs : List (Nat × HandleState)} {hid : Nat}
    {h : HandleState} (hl : lookupHandle hs hid = some h) : (hid, h) ∈ hs := by
  induction hs with
  | nil => cases hl
  | cons p t ih =>
    obtain ⟨a, b⟩ := p
    by_cases hp : a = hid
    · simp only [lookupHandle] at hl
      rw [if_pos (by simp [hp])] at hl
      simp only [Option.some_inj] at hl
      subst hp
      subst hl
      exact List.mem_cons_self _ _
    · simp only [lookupHandle] at hl
      rw [if_neg (by simp [hp])] at hl
      exact List.mem_cons_of_mem _ (ih hl)

/-- `lookupHandle` at a different key is unaffected by `setHandle`. -/
theorem lookupHandle_setHandle_ne (hs : List (Nat × HandleState))
    (hid hid2 : Nat) (h : HandleState) (hne : hid2 ≠ hid) :
    lookupHandle (setHandle hs hid h) hid2 = lookupHandle hs hid2 := by
  induction hs with
  | nil => rfl
  | cons p t ih =>
    obtain ⟨a, b⟩ := p
    simp only [setHandle, List.map_cons]
    by_cases hp : a = hid
    · have hnn : hid ≠ hid2 := fun habs => hne habs.symm
      simp only [lookupHandle, hp]
      simp only [beq_self_eq_true, if_true]
      simp [hnn]
      simpa [setHandle] using ih
    · rw [if_neg (by simp [hp])]
      by_cases hp2 : a = hid2
      · simp [lookupHandle, hp2]
      · simp only [lookupHandle]
        rw [if_neg (by simp [hp2]), if_neg (by simp [hp2])]
        simpa [setHandle] using ih

/-- `lookupHandle` at the overwritten key returns the new value when the key
is present. -/
theorem lookupHandle_setHandle_self {hs : List (Nat × HandleState)}
    {hid : Nat} {h0 : HandleState} (h : HandleState)
    (hl : lookupHandle hs hid = some h0) :
    lookupHandle (setHandle hs hid h) hid = some h := by
  induction hs with
  | nil => cases hl
  | cons p t ih =>
    obtain ⟨a, b⟩ := p
    simp only [setHandle, List.map_cons]
    by_cases hp : a = hid
    · simp [lookupHandle, hp]
    · simp only [lookupHandle] at hl ⊢
      rw [if_neg (by simp [hp])] at hl
      rw [if_neg (by simp [hp])]
      simpa [setHandle] using ih hl

/-- In a duplicate-free table every member is what lookup finds. -/
theorem lookupHandle_eq_of_mem {hs : List (Nat × HandleState)}
    (hnd : (hs.map Prod.fst).Nodup) {p : Nat × HandleState} (hp : p ∈ hs) :
    lookupHandle hs p.1 = some p.2 := by
  induction hs with
  | nil => cases hp
  | cons q t ih =>
    simp only [List.map_cons, List.nodup_cons] at hnd
    rcases List.mem_cons.1 hp with h1 | h1
    · simp [lookupHandle, h1]
    · have hqp : ¬q.1 = p.1 := by
        intro habs
        exact hnd.1 (habs ▸ List.mem_map.2 ⟨p, h1, rfl⟩)
      simp [lookupHandle, hqp]
      exact ih hnd.2 h1

/-- A fresh id exceeding every key is not in the key column. -/
theorem fresh_not_mem_map_fst {hs : List (Nat × HandleState)} {n m : Nat}
    (hle : ∀ p ∈ hs, p.1 ≤ n) (hgt : n < m) : m ∉ hs.map Prod.fst := by
  intro habs
  rcases List.mem_map.1 habs with ⟨p, hp, hq⟩
  have := hle p hp
  omega

end KeyborgModel

namespace KeyborgModel

/-- Creating a handle preserves the window invariant. -/
theorem WInv_create (w : WinSys) (h : WInv w) : WInv (createKeyborg w) := by
  obtain ⟨hnd, hle, hent⟩ := h
  unfold createKeyborg
  cases hw : w.entry with
  | none =>
    rw [hw] at hent
    simp only [WInv]
    refine ⟨?_, ?_, ?_, ?_, ?_, ?_⟩
    · simp only [List.map_append, List.map_cons, List.map_nil]
      rw [List.nodup_append]
      refine ⟨hnd, List.nodup_singleton _, ?_⟩
      intro x hx hy
      have : x ≤ w.lastId := by
        rcases List.mem_map.1 hx with ⟨p, hp, hq⟩
        exact hq ▸ hle p hp
      simp at hy
      omega
    · intro p hp
      rcases List.mem_append.1 hp with h1 | h1
      · have := hle p h1
        omega
      · simp at h1
        simp [h1]
    · simp
    · simp
    · intro r hr
      simp at hr
      simp [hr]
    · intro p hp
      rcases List.mem_append.1 hp with h1 | h1
      · have hlive := hent p h1
        have hple := hle p h1
        simp [hlive]
        omega
      · simp at h1
        simp [h1]
  | some pr =>
    obtain ⟨cid, refs⟩ := pr
    rw [hw] at hent
    obtain ⟨hne, hrnd, hrmem, hiff⟩ := hent
    simp only [WInv]
    refine ⟨?_, ?_, ?_, ?_, ?_, ?_⟩
    · simp only [List.map_append, List.map_cons, List.map_nil]
      rw [List.nodup_append]
      refine ⟨hnd, List.nodup_singleton _, ?_⟩
      intro x hx hy
      have : x ≤ w.lastId := by
        rcases List.mem_map.1 hx with ⟨p, hp, hq⟩
        exact hq ▸ hle p hp
      simp at hy
      omega
    · intro p hp
      rcases List.mem_append.1 hp with h1 | h1
      · have := hle p h1
        omega
      · simp at h1
        simp [h1]
    · simp
    · rw [List.nodup_append]
      refine ⟨hrnd, List.nodup_singleton _, ?_⟩
      intro x hx hy
      have hxm := hrmem x hx
      have : x ≤ w.lastId := by
        rcases List.mem_map.1 hxm with ⟨p, hp, hq⟩
        exact hq ▸ hle p hp
      simp at hy
      omega
    · intro r hr
      rcases List.mem_append.1 hr with h1 | h1
      · have := hrmem r h1
        simp only [List.map_append, List.map_cons, List.map_nil]
        exact List.mem_append.2 (Or.inl this)
      · simp at h1
        simp [h1]
    · intro p hp
      rcases List.mem_append.1 hp with h1 | h1
      · have hple := hle p h1
        have hiffp := hiff p h1
        constructor
        · intro hl
          exact List.mem_append.2 (Or.inl (hiffp.1 hl))
        · intro hl
          rcases List.mem_append.1 hl with h2 | h2
          · exact hiffp.2 h2
          · simp at h2
            omega
      · simp at h1
        simp [h1]

end KeyborgModel

namespace KeyborgModel

/-- Replacing a handle's stored state without changing its liveness
preserves the window invariant. -/
theorem WInv_setHandle_same_live (w : WinSys) (hid : Nat) (hh h2 : HandleState)
    (h : WInv w) (hl : lookupHandle w.handles hid = some hh)
    (hsame : h2.live = hh.live) :
    WInv { w with handles := setHandle w.handles hid h2 } := by
  obtain ⟨hnd, hle, hent⟩ := h
  have hmemh : (hid, hh) ∈ w.handles := lookupHandle_mem hl
  refine ⟨?_, ?_, ?_⟩
  · simpa [setHandle_map_fst] using hnd
  · intro p hp
    rcases mem_setHandle hp with ⟨h1, h2', h3⟩ | ⟨h1, h2'⟩
    · rcases List.mem_map.1 h3 with ⟨q, hq, hq2⟩
      rw [h1, ← hq2]
      exact hle q hq
    · exact hle p h1
  · cases hw : w.entry with
    | none =>
      rw [hw] at hent
      intro p hp
      rcases mem_setHandle hp with ⟨h1, h2', _⟩ | ⟨h1, _⟩
      · rw [h2', hsame]
        exact hent (hid, hh) hmemh
      · exact hent p h1
    | some pr =>
      obtain ⟨cid, refs⟩ := pr
      rw [hw] at hent
      obtain ⟨hne, hrnd, hrmem, hiff⟩ := hent
      refine ⟨hne, hrnd, ?_, ?_⟩
      · intro r hr
        simpa [setHandle_map_fst] using hrmem r hr
      · intro p hp
        rcases mem_setHandle hp with ⟨h1, h2', _⟩ | ⟨h1, h2'⟩
        · rw [h2', hsame, h1]
          exact hiff (hid, hh) hmemh
        · exact hiff p h1

/-- Marking an untracked handle dead (the misuse branch of `dispose`, and
the branch taken when the handle was disposed before) preserves the window
invariant. -/
theorem WInv_setHandle_untracked (w : WinSys) (hid : Nat) (hh : HandleState)
    (h : WInv w) (hl : lookupHandle w.handles hid = some hh)
    (huntracked : hh.live = false ∨
      ∀ cid refs, w.entry = some (cid, refs) → hid ∉ refs) :
    WInv { w with handles := setHandle w.handles hid ⟨false, []⟩ } := by
  obtain ⟨hnd, hle, hent⟩ := h
  have hmemh : (hid, hh) ∈ w.handles := lookupHandle_mem hl
  refine ⟨?_, ?_, ?_⟩
  · simpa [setHandle_map_fst] using hnd
  · intro p hp
    rcases mem_setHandle hp with ⟨h1, h2', h3⟩ | ⟨h1, h2'⟩
    · rcases List.mem_map.1 h3 with ⟨q, hq, hq2⟩
      rw [h1, ← hq2]
      exact hle q hq
    · exact hle p h1
  · cases hw : w.entry with
    | none =>
      rw [hw] at hent
      intro p hp
      rcases mem_setHandle hp with ⟨h1, h2', _⟩ | ⟨h1, _⟩
      · rw [h2']
      · exact hent p h1
    | some pr =>
      obtain ⟨cid, refs⟩ := pr
      rw [hw] at hent
      obtain ⟨hne, hrnd, hrmem, hiff⟩ := hent
      have hnotin : hid ∉ refs := by
        rcases huntracked with hd | hd
        · intro habs
          have := (hiff (hid, hh) hmemh).2 habs
          simp only at this
          rw [hd] at this
          cases this
        · exact hd cid refs hw
      refine ⟨hne, hrnd, ?_, ?_⟩
      · intro r hr
        simpa [setHandle_map_fst] using hrmem r hr
      · intro p hp
        rcases mem_setHandle hp with ⟨h1, h2', _⟩ | ⟨h1, h2'⟩
        · rw [h2', h1]
          simp [hnotin]
        · exact hiff p h1

end KeyborgModel

namespace KeyborgModel

/-- Disposing the last tracked handle (registry filter came out empty)
preserves the window invariant: the entry is dropped and no handle stays
live. -/
theorem WInv_dispose_last (w : WinSys) (hid cid : Nat) (refs : List Nat)
    (g : KeyborgState) (h : WInv w) (hw : w.entry = some (cid, refs))
    (hempty : (refs.filter (fun r => !(r == hid))).isEmpty = true) :
    WInv { entry := none, handles := setHandle w.handles hid ⟨false, []⟩,
           lastId := w.lastId, gstate := g } := by
  obtain ⟨hnd, hle, hent⟩ := h
  rw [hw] at hent
  obtain ⟨hne, hrnd, hrmem, hiff⟩ := hent
  have hfilter : refs.filter (fun r => !(r == hid)) = [] := by
    simpa [List.isEmpty_iff] using hempty
  refine ⟨?_, ?_, ?_⟩
  · simpa [setHandle_map_fst] using hnd
  · intro p hp
    rcases mem_setHandle hp with ⟨h1, h2', h3⟩ | ⟨h1, h2'⟩
    · rcases List.mem_map.1 h3 with ⟨q, hq, hq2⟩
      rw [h1, ← hq2]
      exact hle q hq
    · exact hle p h1
  · intro p hp
    rcases mem_setHandle hp with ⟨h1, h2', _⟩ | ⟨h1, h2'⟩
    · rw [h2']
    · by_contra habs
      have hlv : p.2.live = true := by
        cases hb : p.2.live with
        | false => exact absurd hb habs
        | true => rfl
      have hinrefs : p.1 ∈ refs := (hiff p h1).1 hlv
      have : p.1 ∈ refs.filter (fun r => !(r == hid)) :=
        List.mem_filter.2 ⟨hinrefs, by simp [h2']⟩
      rw [hfilter] at this
      cases this

/-- Disposing a tracked handle that is not the last one preserves the window
invariant: its id leaves the registry, everything else stays. -/
theorem WInv_dispose_not_last (w : WinSys) (hid cid : Nat) (refs : List Nat)
    (h : WInv w) (hw : w.entry = some (cid, refs))
    (hnonempty : (refs.filter (fun r => !(r == hid))).isEmpty = false) :
    WInv { entry := some (cid, refs.filter (fun r => !(r == hid))),
           handles := setHandle w.handles hid ⟨false, []⟩,
           lastId := w.lastId, gstate := w.gstate } := by
  obtain ⟨hnd, hle, hent⟩ := h
  rw [hw] at hent
  obtain ⟨hne, hrnd, hrmem, hiff⟩ := hent
  refine ⟨?_, ?_, ?_, ?_, ?_, ?_⟩
  · simpa [setHandle_map_fst] using hnd
  · intro p hp
    rcases mem_setHandle hp with ⟨h1, h2', h3⟩ | ⟨h1, h2'⟩
    · rcases List.mem_map.1 h3 with ⟨q, hq, hq2⟩
      rw [h1, ← hq2]
      exact hle q hq
    · exact hle p h1
  · intro habs
    rw [habs] at hnonempty
    cases hnonempty
  · exact hrnd.filter _
  · intro r hr
    have hr2 : r ∈ refs := (List.mem_filter.1 hr).1
    simpa [setHandle_map_fst] using hrmem r hr2
  · intro p hp
    rcases mem_setHandle hp with ⟨h1, h2', _⟩ | ⟨h1, h2'⟩
    · rw [h2', h1]
      constructor
      · intro habs
        cases habs
      · intro habs
        have := (List.mem_filter.1 habs).2
        simp at this
    · have hiffp := hiff p h1
      constructor
      · intro hlv
        exact List.mem_filter.2 ⟨hiffp.1 hlv, by simp [h2']⟩
      · intro hlv
        exact hiffp.2 (List.mem_filter.1 hlv).1

end KeyborgModel

namespace KeyborgModel

/-- `dispose` preserves the window invariant in every branch. -/
theorem WInv_dispose (w : WinSys) (hid : Nat) (dev : Bool) (h : WInv w) :
    WInv (disposeKeyborg w hid dev).1 := by
  unfold disposeKeyborg
  split
  · exact h
  · rename_i hh hl
    split
    · rename_i pr cid refs hif
      have hb : hh.live = true := by
        cases hbl : hh.live with
        | false => rw [hbl] at hif; simp at hif
        | true => rfl
      have hw : w.entry = some (cid, refs) := by
        rw [hb] at hif
        simpa using hif
      split
      · dsimp only
        split
        · rename_i hc hempty
          exact WInv_dispose_last w hid cid refs (w.gstate.remove cid) h hw hempty
        · rename_i hc hempty
          exact WInv_dispose_not_last w hid cid refs h hw
            (Bool.not_eq_true _ ▸ eq_false_of_ne_true hempty)
      · rename_i hc
        refine WInv_setHandle_untracked w hid hh h hl (Or.inr ?_)
        intro cid2 refs2 habs
        rw [hw] at habs
        simp only [Option.some_inj, Prod.mk.injEq] at habs
        rw [← habs.2]
        simpa using hc
    · rename_i hif
      cases hbl : hh.live with
      | false => exact WInv_setHandle_untracked w hid hh h hl (Or.inl hbl)
      | true =>
        have hw : w.entry = none := by
          rw [hbl] at hif
          simpa using hif
        exact WInv_setHandle_untracked w hid hh h hl
          (Or.inr (fun cid refs habs => by rw [hw] at habs; cases habs))

end KeyborgModel

namespace KeyborgModel

/-- Every public-API operation preserves the window invariant. -/
theorem WInv_applyWinOp (w : WinSys) (op : WinOp) (h : WInv w) :
    WInv (applyWinOp w op) := by
  cases op with
  | create => exact WInv_create w h
  | disposeOp hid dev => exact WInv_dispose w hid dev h
  | subscribeOp hid cb =>
    simp only [applyWinOp]
    split
    · rename_i hh hl
      exact WInv_setHandle_same_live w hid hh
        ⟨hh.live, Keyborg.subscribe hh.cbs cb⟩ h hl rfl
    · exact h
  | unsubscribeOp hid cb =>
    simp only [applyWinOp]
    split
    · rename_i hh hl
      exact WInv_setHandle_same_live w hid hh
        ⟨hh.live, Keyborg.unsubscribe hh.cbs cb⟩ h hl rfl
    · exact h

/-- The empty window system satisfies the invariant. -/
theorem WInv_initWin : WInv initWin := by
  refine ⟨List.nodup_nil, ?_, ?_⟩ <;> intro p hp <;> cases hp

/-- Every reachable window system satisfies the invariant. -/
theorem WInv_runWin (ops : List WinOp) : WInv (runWin ops) := by
  suffices haux : ∀ (l : List WinOp) (w : WinSys), WInv w →
      WInv (l.foldl applyWinOp w) by
    exact haux ops initWin WInv_initWin
  intro l
  induction l with
  | nil => intro w hw; exact hw
  | cons op t ih =>
    intro w hw
    exact ih (applyWinOp w op) (WInv_applyWinOp w op hw)

end KeyborgModel

namespace KeyborgModel

/-- C7: after any sequence of public-API operations, the window has a
`__keyborg` entry exactly when at least one live handle exists; concretely,
with two handles on one window, disposing one keeps the entry (same core)
and the other handle's subscription list, and disposing the last handle
drops the entry and unregisters the core from the global state. -/
theorem c7_core_iff_live_handle :
    (∀ ops : List WinOp, (runWin ops).entry.isSome = true ↔
      ∃ p ∈ (runWin ops).handles, p.2.live = true) ∧
    ((runWin [WinOp.create, WinOp.create, WinOp.subscribeOp 1 7,
        WinOp.subscribeOp 3 9, WinOp.disposeOp 1 false]).entry =
          some (2, [3]) ∧
      lookupHandle (runWin [WinOp.create, WinOp.create, WinOp.subscribeOp 1 7,
        WinOp.subscribeOp 3 9, WinOp.disposeOp 1 false]).handles 3 =
          some ⟨true, [9]⟩ ∧
      (runWin [WinOp.create, WinOp.create, WinOp.subscribeOp 1 7,
        WinOp.subscribeOp 3 9, WinOp.disposeOp 1 false,
        WinOp.disposeOp 3 false]).entry = none ∧
      (runWin [WinOp.create, WinOp.create, WinOp.subscribeOp 1 7,
        WinOp.subscribeOp 3 9, WinOp.disposeOp 1 false,
        WinOp.disposeOp 3 false]).gstate.coreRefs = []) := by
  constructor
  · intro ops
    obtain ⟨hnd, hle, hent⟩ := WInv_runWin ops
    cases hw : (runWin ops).entry with
    | none =>
      rw [hw] at hent
      simp only [Option.isSome_none]
      constructor
      · intro habs
        cases habs
      · rintro ⟨p, hp, hlv⟩
        rw [hent p hp] at hlv
        cases hlv
    | some pr =>
      obtain ⟨cid, refs⟩ := pr
      rw [hw] at hent
      obtain ⟨hne, hrnd, hrmem, hiff⟩ := hent
      simp only [Option.isSome_some]
      constructor
      · intro _
        obtain ⟨r, hr⟩ := List.exists_mem_of_ne_nil refs hne
        rcases List.mem_map.1 (hrmem r hr) with ⟨p, hp, hq⟩
        exact ⟨p, hp, (hiff p hp).2 (by rw [hq]; exact hr)⟩
      · intro _
        trivial
  · refine ⟨by decide, by decide, by decide, by decide⟩

/-- The condition under which `dispose` actually removes a handle: the
handle still holds its window and its id is in the window's `refs` table. -/
def trackedB (w : WinSys) (hid : Nat) (h : HandleState) : Bool :=
  h.live &&
    (match w.entry with
     | some (_, refs) => refs.contains hid
     | none => false)

/-- C8: disposing a handle that is not tracked — in particular a handle
being disposed a second time — never throws (the embedding is a total
function), leaves the window's `__keyborg` entry, the core, the global
state, and every other handle unchanged, only clears the handle itself, and
reports the misuse exactly in non-production (`__DEV__`) builds; moreover
after any dispose the handle is untracked, so a repeat dispose falls into
this branch. -/
theorem c8_dispose_untracked (w : WinSys) (hid : Nat) (dev : Bool)
    (hh : HandleState) (hl : lookupHandle w.handles hid = some hh)
    (ht : trackedB w hid hh = false) :
    (disposeKeyborg w hid dev).1.entry = w.entry ∧
    (disposeKeyborg w hid dev).1.gstate = w.gstate ∧
    (disposeKeyborg w hid dev).1.lastId = w.lastId ∧
    (disposeKeyborg w hid dev).2 = dev ∧
    (∀ hid2, hid2 ≠ hid →
      lookupHandle (disposeKeyborg w hid dev).1.handles hid2 =
        lookupHandle w.handles hid2) ∧
    lookupHandle (disposeKeyborg w hid dev).1.handles hid =
      some ⟨false, []⟩ ∧
    trackedB (disposeKeyborg w hid dev).1 hid ⟨false, []⟩ = false := by
  have hres : disposeKeyborg w hid dev =
      ({ w with handles := setHandle w.handles hid ⟨false, []⟩ }, dev) := by
    simp only [disposeKeyborg, hl]
    cases hb : hh.live with
    | false => simp [hb]
    | true =>
      rw [trackedB, hb, Bool.true_and] at ht
      cases hw : w.entry with
      | none => simp [hb, hw]
      | some pr =>
        obtain ⟨cid, refs⟩ := pr
        rw [hw] at ht
        simp only [] at ht
        simp at ht
        simp [hb, hw, ht]
  rw [hres]
  refine ⟨rfl, rfl, rfl, rfl, ?_, ?_, ?_⟩
  · intro hid2 hne
    exact lookupHandle_setHandle_ne w.handles hid hid2 ⟨false, []⟩ hne
  · exact lookupHandle_setHandle_self ⟨false, []⟩ hl
  · simp [trackedB]

/-- Witness for C8: disposing the same handle twice; the second dispose
changes nothing and flags the misuse in dev builds. -/
theorem c8_dispose_untracked_witness :
    lookupHandle (runWin [WinOp.create, WinOp.disposeOp 1 true]).handles 1 =
        some ⟨false, []⟩ ∧
      trackedB (runWin [WinOp.create, WinOp.disposeOp 1 true]) 1
        ⟨false, []⟩ = false ∧
      (disposeKeyborg (runWin [WinOp.create, WinOp.disposeOp 1 true]) 1
          true).1.entry = (runWin [WinOp.create, WinOp.disposeOp 1 true]).entry ∧
      (disposeKeyborg (runWin [WinOp.create, WinOp.disposeOp 1 true]) 1
          true).2 = true :=
  ⟨by decide, by decide,
    (c8_dispose_untracked (runWin [WinOp.create, WinOp.disposeOp 1 true]) 1
      true ⟨false, []⟩ (by decide) (by decide)).1,
    (c8_dispose_untracked (runWin [WinOp.create, WinOp.disposeOp 1 true]) 1
      true ⟨false, []⟩ (by decide) (by decide)).2.2.2.1⟩

end KeyborgModel
